import Mathlib

/-!
Shallow embedding of the moving, copying garbage collector in `src/Main.cpp`
(a Cheney semispace collector extended with pinning and finalizers).

Modelling conventions, matching the source:

* The heap byte array `Heap::Space` is addressed by `Nat` offsets; `Space` has
  base address 0, so the two semispaces are `[0, 512)` and `[512, 1024)`.
  `Heap::Size = 1024`, `sizeof(GCHeader) = 16` (two 8-byte pointers),
  and `GCObject<T>` is `alignas(std::max_align_t)` so sizes are multiples of 16.
* A managed pointer value (`GCPtr<T>::Value`, a `T*`) is represented by the
  address of the object's `GCHeader` (the `GCObject<T>` base); the payload
  sits at a fixed offset above it, so pointer identity, `InFrom` classification
  and stability statements are preserved exactly.
* Header-sized memory contents are modelled by `Headers : Nat → GCHeader` and
  the `GCPtr` fields inside payloads by `Fields : Nat → Option Nat`; the
  C++ program only ever reinterprets a given byte range in one of these two
  ways at a time, and object layout keeps the ranges disjoint.
* The demonstration type `A` (a payload with a single `GCPtr<A> ptr` field at
  payload offset 0, i.e. byte offset 16 from the header, and a non-trivial
  destructor) is `Ty.tyA`; `Ty.tyB` is a leaf payload type with no managed
  fields and a trivial destructor, occupying 48 bytes.
* Pointer differences: C++ compares `ptrdiff_t` (signed) against `std::size_t`
  expressions such as `Size / 2 - allocatingSize`; usual arithmetic conversions
  turn the signed difference into an unsigned 64-bit value. `usub` models that
  wrap-around explicitly.
* Exceptions: `Res.thrown e s` is an exception escaping with the heap left in
  state `s` (the heap is a singleton that exceptions unwind across).
  `Res.stuck` models undefined behaviour (null dereference), a failed
  `assert`, `std::terminate` (an exception escaping the `noexcept` `Collect`),
  and fuel exhaustion of the fuelled loops.
* Ghost instrumentation that does not influence control flow: `ObjIds`/`NextId`
  give every allocation a unique identity which relocation preserves, and
  `FinLog` records each `Finalize` invocation by that identity.
-/

namespace GC

/-- Unsigned 64-bit interpretation of the pointer difference `a - b`, as
produced by the C++ usual arithmetic conversions when a `ptrdiff_t` is
compared against a `std::size_t`. -/
def usub (a b : Nat) : Nat :=
  (a + 2 ^ 64 - b) % 2 ^ 64

/-- The managed payload types of the model: `tyA` mirrors the demo type `A`
(one `GCPtr` field, non-trivial destructor), `tyB` is a managed leaf type
with no reference fields and a trivial destructor. -/
inductive Ty where
  | tyA
  | tyB
deriving DecidableEq, Repr

/-- Source `GCInfo::Size` — `sizeof(GCObject<T>)`: 16-byte header plus the payload,
rounded to the 16-byte alignment of `std::max_align_t`. -/
def Ty.Size : Ty → Nat
  | .tyA => 32
  | .tyB => 48

/-- The `GCPtr` fields of the payload: byte offset from the object header
paired with the field's static referent type (`A::ptr` is `GCPtr<A>` at
offset 16). `GCTraits<T>::VisitPointer` enumerates exactly these. -/
def Ty.fieldTys : Ty → List (Nat × Ty)
  | .tyA => [(16, .tyA)]
  | .tyB => []

/-- Whether `GCInfo::Finalize` is non-null for the type
(`!std::is_trivially_destructible_v<T>`). -/
def Ty.hasFinalize : Ty → Bool
  | .tyA => true
  | .tyB => false

/-- The object header: `Info` is the type descriptor pointer (`none` = null),
`Forwardee` the forwarding/pinning/skip pointer (`none` = null). -/
structure GCHeader where
  Info : Option Ty
  Forwardee : Option Nat
deriving DecidableEq, Repr

/-- The exceptions the allocator can raise. -/
inductive ExnKind where
  | badAlloc
  | ctorExn
deriving DecidableEq, Repr

/-- The C++ `sizeof(GCHeader)`. -/
def GCHeaderSize : Nat := 16

/-- The heap state. `From`, `To`, `AllocPtr` are byte addresses into `Space`
(base 0); `OnStackGCPtrs` is the root set in registration order, recording
per registered stack handle its identity and its `GCInfo`; `RootVals` holds
each stack handle's current payload pointer. `ObjIds`, `NextId`, `NextRootId`
and `FinLog` are ghost instrumentation. -/
structure Heap where
  From : Nat
  To : Nat
  AllocPtr : Nat
  Headers : Nat → GCHeader
  Fields : Nat → Option Nat
  OnStackGCPtrs : List (Nat × Ty)
  RootVals : Nat → Option Nat
  ObjIds : Nat → Option Nat
  NextId : Nat
  NextRootId : Nat
  FinLog : List (Option Nat)

/-- The constant `Heap::Size`. -/
def Heap.Size : Nat := 1024

/-- The computation result of a heap operation: normal return, an exception
escaping with the (unwound) heap state, or undefined behaviour / assertion
failure / `std::terminate` / fuel exhaustion. -/
inductive Res (α : Type) where
  | ok : α → Heap → Res α
  | thrown : ExnKind → Heap → Res α
  | stuck : Res α

def Heap.writeHeader (s : Heap) (a : Nat) (h : GCHeader) : Heap :=
  { s with Headers := fun x => if x = a then h else s.Headers x }

def Heap.writeField (s : Heap) (a : Nat) (v : Option Nat) : Heap :=
  { s with Fields := fun x => if x = a then v else s.Fields x }

def Heap.writeRoot (s : Heap) (id : Nat) (v : Option Nat) : Heap :=
  { s with RootVals := fun x => if x = id then v else s.RootVals x }

/-- Source `Heap::InFrom(ptr)` — integer-address comparison against
`[From, From + Size/2)`. -/
def Heap.InFrom (s : Heap) (a : Nat) : Bool :=
  decide (s.From ≤ a) && decide (a < s.From + Heap.Size / 2)

/-- Source `Heap::Used()` — `AllocPtr - From` as a `std::size_t`. -/
def Heap.Used (s : Heap) : Nat :=
  usub s.AllocPtr s.From

/-- The instantiation `AdjustAllocPtr<Space::To, CollectPolicy::NeverCollect>`:
the evacuation-side instantiation. The `goto AllocateBegin` loop is fuelled.
Overflow throws `std::bad_alloc`; a skip record (`Info` null, `Forwardee`
non-null) whose gap cannot hold the object plus a follow-up record makes the
cursor hop past the pinned object it designates. -/
def Heap.AdjustAllocPtrTo (allocatingSize : Nat) : Nat → Heap → Res GCHeader
  | 0, _ => .stuck
  | fuel + 1, s =>
    if usub s.AllocPtr s.To > Heap.Size / 2 - allocatingSize then
      .thrown .badAlloc s
    else
      let oldHeaderContent := s.Headers s.AllocPtr
      match oldHeaderContent.Info, oldHeaderContent.Forwardee with
      | none, some nextPinnedObject =>
        if usub nextPinnedObject s.AllocPtr < allocatingSize + GCHeaderSize then
          match (s.Headers nextPinnedObject).Info with
          | none => .stuck
          | some i =>
            Heap.AdjustAllocPtrTo allocatingSize fuel
              { s with AllocPtr := nextPinnedObject + i.Size }
        else
          .ok oldHeaderContent s
      | _, _ => .ok oldHeaderContent s

/-- Source `Heap::Evacuate<T>(obj)` for `T = t`, `obj` at header address `objAddr`.
A pinned object (`Forwardee == header`) is returned unchanged. Otherwise the
object is relocated to to-space (mind: an already-forwarded object is NOT
recognized here — only the pinned case short-circuits), the new header is
written, the old header's `Forwardee` is set to the new location, and the
scope guard re-writes the saved preamble past the new object. -/
def Heap.Evacuate (t : Ty) (objAddr : Nat) (fuel : Nat) (s : Heap) : Res Nat :=
  if (s.Headers objAddr).Forwardee = some objAddr then
    .ok objAddr s
  else
    let AllocatingSize := t.Size
    if usub s.AllocPtr s.To > Heap.Size / 2 - AllocatingSize then
      .thrown .badAlloc s
    else
      match Heap.AdjustAllocPtrTo AllocatingSize fuel s with
      | .stuck => .stuck
      | .thrown e s1 => .thrown e s1
      | .ok oldHeaderContent s1 =>
        let resultPtr := s1.AllocPtr
        let s2 := t.fieldTys.foldl
          (fun acc ft => acc.writeField (resultPtr + ft.1) (s1.Fields (objAddr + ft.1))) s1
        let s3 := { s2 with
          ObjIds := fun x => if x = resultPtr then s2.ObjIds objAddr else s2.ObjIds x }
        let s4 := s3.writeHeader resultPtr { Info := some t, Forwardee := none }
        let s5 := s4.writeHeader objAddr
          { (s4.Headers objAddr) with Forwardee := some resultPtr }
        let s6 := { s5 with AllocPtr := resultPtr + AllocatingSize }
        let s7 := if usub s6.AllocPtr s6.To < Heap.Size / 2 - GCHeaderSize then
            s6.writeHeader s6.AllocPtr oldHeaderContent
          else s6
        .ok resultPtr s7

/-- A managed-reference slot: either a registered stack handle or a `GCPtr`
field inside a managed object, at its byte address. -/
inductive Slot where
  | root (id : Nat)
  | field (addr : Nat)
deriving DecidableEq, Repr

def Heap.readSlot (s : Heap) : Slot → Option Nat
  | .root id => s.RootVals id
  | .field a => s.Fields a

def Heap.writeSlot (s : Heap) : Slot → Option Nat → Heap
  | .root id, v => s.writeRoot id v
  | .field a, v => s.writeField a v

/-- Source `Heap::ProcessReference<T>(ptr)` on the slot `slot` of static type `t`:
null references return immediately; for a from-space referent the slot is
rewritten to the `Forwardee` when set (this includes the pinned case, where
`Forwardee` is the object itself), and otherwise the referent is evacuated
first. Referents outside from-space are left alone. -/
def Heap.ProcessReference (t : Ty) (slot : Slot) (fuel : Nat) (s : Heap) : Res Unit :=
  match s.readSlot slot with
  | none => .ok () s
  | some objAddr =>
    if (s.Headers objAddr).Info = none then
      .stuck
    else
      if s.InFrom objAddr then
        match (s.Headers objAddr).Forwardee with
        | some f => .ok () (s.writeSlot slot (some f))
        | none =>
          match s.Evacuate t objAddr fuel with
          | .ok newObj s1 => .ok () (s1.writeSlot slot (some newObj))
          | .thrown e s1 => .thrown e s1
          | .stuck => .stuck
      else
        .ok () s

/-- The body of `GCInfo::Get<T>().VisitPointer`: `ProcessReference` on every
`GCPtr` field of the object at `objAddr`, in declaration order. -/
def Heap.processFields : List (Nat × Ty) → Nat → Nat → Heap → Res Unit
  | [], _, _, s => .ok () s
  | ft :: rest, objAddr, fuel, s =>
    match Heap.ProcessReference ft.2 (.field (objAddr + ft.1)) fuel s with
    | .ok _ s1 => Heap.processFields rest objAddr fuel s1
    | .thrown e s1 => .thrown e s1
    | .stuck => .stuck

/-- Thunk `GCInfo::Get<T>().VisitPointer(header, heap)`. -/
def Heap.VisitPointer (t : Ty) (objAddr : Nat) (fuel : Nat) (s : Heap) : Res Unit :=
  Heap.processFields t.fieldTys objAddr fuel s

/-- Thunk `GCInfo::Get<T>().Evacuate(ptr, heap)` — the root-evacuation thunk: it
passes the handle's payload to `Heap::Evacuate` with NO null check, so a
null payload dereferences a null `GCHeader*`. -/
def Heap.rootEvacuate (t : Ty) (id : Nat) (fuel : Nat) (s : Heap) : Res Unit :=
  match s.RootVals id with
  | none => .stuck
  | some objAddr =>
    match s.Evacuate t objAddr fuel with
    | .ok newObj s1 => .ok () (s1.writeRoot id (some newObj))
    | .thrown e s1 => .thrown e s1
    | .stuck => .stuck

/-- The root-evacuation loop of `Collect` over `OnStackGCPtrs[0..n)`. -/
def Heap.rootLoop : List (Nat × Ty) → Nat → Heap → Res Unit
  | [], _, s => .ok () s
  | r :: rest, fuel, s =>
    match Heap.rootEvacuate r.2 r.1 fuel s with
    | .ok _ s1 => Heap.rootLoop rest fuel s1
    | .thrown e s1 => .thrown e s1
    | .stuck => .stuck

/-- The Cheney scan loop of `Collect`: while `scanPtr < AllocPtr`, follow skip
records, otherwise visit the object's references and advance by its size. -/
def Heap.scanLoop : Nat → Nat → Heap → Res Unit
  | 0, _, _ => .stuck
  | fuel + 1, scanPtr, s =>
    if scanPtr < s.AllocPtr then
      let header := s.Headers scanPtr
      match header.Info with
      | none =>
        match header.Forwardee with
        | none => .stuck
        | some f => Heap.scanLoop fuel f s
      | some t =>
        match Heap.VisitPointer t scanPtr fuel s with
        | .ok _ s1 =>
          match (s1.Headers scanPtr).Info with
          | none => .stuck
          | some t2 => Heap.scanLoop fuel (scanPtr + t2.Size) s1
        | .thrown e s1 => .thrown e s1
        | .stuck => .stuck
    else
      .ok () s

/-- The finalization / pinned-record-rebuild walk of `Collect` over the old
from-space. Returns the final `pinnedObjectRecordHeader`. Un-forwarded objects
with a finalizer are finalized (logged by ghost identity); pinned objects get
a skip record written at the current record slot when they are not adjacent
to it, and move the record slot past themselves. -/
def Heap.finalizeLoop : Nat → Nat → Nat → Heap → Res Nat
  | 0, _, _, _ => .stuck
  | fuel + 1, scanPtr, pinRec, s =>
    if usub scanPtr s.From < Heap.Size / 2 - GCHeaderSize then
      let header := s.Headers scanPtr
      match header.Info with
      | none =>
        match header.Forwardee with
        | some f => Heap.finalizeLoop fuel f pinRec s
        | none => .ok pinRec s
      | some t =>
        let size := t.Size
        let s1 :=
          if header.Forwardee = none then
            if t.hasFinalize then
              { s with FinLog := s.FinLog ++ [s.ObjIds scanPtr] }
            else s
          else if header.Forwardee = some scanPtr then
            if pinRec ≠ scanPtr then
              s.writeHeader pinRec { Info := none, Forwardee := some scanPtr }
            else s
          else s
        let pinRec1 := if header.Forwardee = some scanPtr then scanPtr + size else pinRec
        Heap.finalizeLoop fuel (scanPtr + size) pinRec1 s1
    else
      .ok pinRec s

/-- The flip prep of `Collect`: `AllocPtr = To` (and `scanPtr = AllocPtr`). -/
def Heap.collectPrep (s : Heap) : Heap :=
  { s with AllocPtr := s.To }

/-- Source `Heap::Collect()` — `noexcept`: flip prep (`AllocPtr := To`), root
evacuation, Cheney scan, finalization walk, trailing sentinel, swap. An
exception escaping any phase means `std::terminate` (stuck). -/
def Heap.Collect (fuel : Nat) (s0 : Heap) : Res Unit :=
  let s := s0.collectPrep
  match Heap.rootLoop s.OnStackGCPtrs fuel s with
  | .thrown _ _ => .stuck
  | .stuck => .stuck
  | .ok _ s1 =>
    match Heap.scanLoop fuel s.To s1 with
    | .thrown _ _ => .stuck
    | .stuck => .stuck
    | .ok _ s2 =>
      match Heap.finalizeLoop fuel s2.From s2.From s2 with
      | .thrown _ _ => .stuck
      | .stuck => .stuck
      | .ok pinRec s3 =>
        let s4 := if pinRec < s3.From + Heap.Size / 2 - GCHeaderSize then
            s3.writeHeader pinRec { Info := none, Forwardee := none }
          else s3
        .ok () { s4 with From := s4.To, To := s4.From }

/-- The instantiation `AdjustAllocPtr<Space::From, CollectPolicy::CollectIfNeeded>`. NOTE: the
C++ `spaceBase` local is read at `AllocateBegin`, BEFORE the possible
`Collect()`, and the post-collection recheck still uses that stale value —
modelled faithfully. -/
def Heap.AdjustAllocPtrFrom (allocatingSize : Nat) : Nat → Heap → Res GCHeader
  | 0, _ => .stuck
  | fuel + 1, s =>
    let spaceBase := s.From
    let afterOverflow : Res Unit :=
      if usub s.AllocPtr spaceBase > Heap.Size / 2 - allocatingSize then
        match Heap.Collect fuel s with
        | .ok _ s1 =>
          if usub s1.AllocPtr spaceBase > Heap.Size / 2 - allocatingSize then
            .thrown .badAlloc s1
          else
            .ok () s1
        | _ => .stuck
      else
        .ok () s
    match afterOverflow with
    | .thrown e s1 => .thrown e s1
    | .stuck => .stuck
    | .ok _ s1 =>
      let oldHeaderContent := s1.Headers s1.AllocPtr
      match oldHeaderContent.Info, oldHeaderContent.Forwardee with
      | none, some nextPinnedObject =>
        if usub nextPinnedObject s1.AllocPtr < allocatingSize + GCHeaderSize then
          match (s1.Headers nextPinnedObject).Info with
          | none => .stuck
          | some i =>
            Heap.AdjustAllocPtrFrom allocatingSize fuel
              { s1 with AllocPtr := nextPinnedObject + i.Size }
        else
          .ok oldHeaderContent s1
      | _, _ => .ok oldHeaderContent s1

/-- Source `Heap::Allocate<T>(args...)` with `T = t`; `ctorFails` models the payload
constructor throwing. On success the new object's header is written, the
cursor advances, and the scope guard re-writes the saved preamble behind the
new object (when more than a header's worth of space remains). On
construction failure the guard rolls `AllocPtr` back to its value from
before `AdjustAllocPtr` ran and writes the preamble at that restored
position. Returns the new object's address; its `GCPtr` registration is done
by the caller-side handle construction. -/
def Heap.Allocate (t : Ty) (ctorFails : Bool) (fuel : Nat) (s : Heap) : Res Nat :=
  let AllocatingSize := t.Size
  let oldAllocPtr := s.AllocPtr
  match Heap.AdjustAllocPtrFrom AllocatingSize fuel s with
  | .stuck => .stuck
  | .thrown e s1 => .thrown e s1
  | .ok oldHeaderContent s1 =>
    let resultPtr := s1.AllocPtr
    if ctorFails then
      let s2 := { s1 with AllocPtr := oldAllocPtr }
      let s3 := if usub s2.AllocPtr s2.From < Heap.Size / 2 - GCHeaderSize then
          s2.writeHeader s2.AllocPtr oldHeaderContent
        else s2
      .thrown .ctorExn s3
    else
      let s2 := t.fieldTys.foldl
        (fun acc ft => acc.writeField (resultPtr + ft.1) none) s1
      let s3 := s2.writeHeader resultPtr { Info := some t, Forwardee := none }
      let s4 := { s3 with
        ObjIds := fun x => if x = resultPtr then some s3.NextId else s3.ObjIds x,
        NextId := s3.NextId + 1 }
      let s5 := { s4 with AllocPtr := resultPtr + AllocatingSize }
      let s6 := if usub s5.AllocPtr s5.From < Heap.Size / 2 - GCHeaderSize then
          s5.writeHeader s5.AllocPtr oldHeaderContent
        else s5
      .ok resultPtr s6

/-- Source `Heap::Pin(ptr)` — asserts the header is not forwarded/pinned, then makes
the header its own forwardee. -/
def Heap.Pin (objAddr : Nat) (s : Heap) : Res Unit :=
  if (s.Headers objAddr).Forwardee ≠ none then
    .stuck
  else
    .ok () (s.writeHeader objAddr { s.Headers objAddr with Forwardee := some objAddr })

/-- Source `Heap::Unpin(ptr)` — asserts the header is pinned, then clears it. -/
def Heap.Unpin (objAddr : Nat) (s : Heap) : Res Unit :=
  if (s.Headers objAddr).Forwardee ≠ some objAddr then
    .stuck
  else
    .ok () (s.writeHeader objAddr { s.Headers objAddr with Forwardee := none })

/-- The per-space walk of `Heap::FinalizeAll`: follow skip records, stop at
the zero sentinel or the space end, finalize un-forwarded objects that have a
finalizer (pinned objects have a non-null `Forwardee` and are skipped). -/
def Heap.finalizeAllLoop : Nat → Nat → Nat → Heap → Res Unit
  | 0, _, _, _ => .stuck
  | fuel + 1, spaceBase, scanPtr, s =>
    if usub scanPtr spaceBase < Heap.Size / 2 - GCHeaderSize then
      let header := s.Headers scanPtr
      match header.Info with
      | none =>
        match header.Forwardee with
        | some f => Heap.finalizeAllLoop fuel spaceBase f s
        | none => .ok () s
      | some t =>
        let s1 :=
          if header.Forwardee = none then
            if t.hasFinalize then
              { s with FinLog := s.FinLog ++ [s.ObjIds scanPtr] }
            else s
          else s
        Heap.finalizeAllLoop fuel spaceBase (scanPtr + t.Size) s1
    else
      .ok () s

/-- Source `Heap::FinalizeAll()` — asserts the root set is empty, then walks both
semispaces (in `Space` order, bases 0 and `Size/2`). -/
def Heap.FinalizeAll (fuel : Nat) (s : Heap) : Res Unit :=
  if s.OnStackGCPtrs.length ≠ 0 then
    .stuck
  else
    match Heap.finalizeAllLoop fuel 0 0 s with
    | .ok _ s1 => Heap.finalizeAllLoop fuel (Heap.Size / 2) (Heap.Size / 2) s1
    | .thrown e s1 => .thrown e s1
    | .stuck => .stuck

/-- The freshly constructed heap: `Space` is zero-initialized (every header
reads as the zero sentinel, every field as null), a sentinel is written at the
base of each semispace, `From = Space`, `To = Space + Size/2`,
`AllocPtr = From`. -/
def initHeap : Heap where
  From := 0
  To := Heap.Size / 2
  AllocPtr := 0
  Headers := fun _ => { Info := none, Forwardee := none }
  Fields := fun _ => none
  OnStackGCPtrs := []
  RootVals := fun _ => none
  ObjIds := fun _ => none
  NextId := 0
  NextRootId := 0
  FinLog := []

/-- Register a stack handle of type `t` with payload `v` (the `GCPtr` ctor
for a handle living outside the heap byte range). -/
def Heap.pushRoot (s : Heap) (t : Ty) (v : Option Nat) : Heap :=
  { s.writeRoot s.NextRootId v with
    OnStackGCPtrs := s.OnStackGCPtrs ++ [(s.NextRootId, t)],
    NextRootId := s.NextRootId + 1 }

/-- The `GCPtr` destructor for a handle outside the heap:
`--CurrentGCPtrSize` pops the last root-set slot. -/
def Heap.popRoot (s : Heap) : Heap :=
  { s with OnStackGCPtrs := s.OnStackGCPtrs.dropLast }

/-- Client operations, each a line of code the demo `main` could contain:
allocate into a kept / immediately-destroyed / constructor-throwing handle,
declare a default (null) handle, copy-construct a handle from the root at a
given root-set index, destroy the most recent stack handle, assign a root's
payload into the `ptr` field of another root's referent (which transiently
pins the target, as `operator->` does), pin/unpin a root's referent via
`UnscopedPin`/`UnscopedUnpin`, or force a collection. -/
inductive Op where
  | allocKeep (t : Ty)
  | allocFail (t : Ty)
  | allocDrop (t : Ty)
  | declNull (t : Ty)
  | copyRoot (idx : Nat)
  | dropLast
  | setField (dstIdx srcIdx : Nat)
  | pinRoot (idx : Nat)
  | unpinRoot (idx : Nat)
  | collect
deriving DecidableEq, Repr

/-- Fuel ample for every loop in the 1024-byte heap. -/
def FUEL : Nat := 200

def step (s : Heap) : Op → Res Unit
  | .allocKeep t =>
    match s.Allocate t false FUEL with
    | .ok obj s1 => .ok () (s1.pushRoot t (some obj))
    | .thrown e s1 => .thrown e s1
    | .stuck => .stuck
  | .allocFail t =>
    match s.Allocate t true FUEL with
    | .thrown .ctorExn s1 => .ok () s1
    | .thrown e s1 => .thrown e s1
    | .ok _ _ => .stuck
    | .stuck => .stuck
  | .allocDrop t =>
    match s.Allocate t false FUEL with
    | .ok obj s1 => .ok () ((s1.pushRoot t (some obj)).popRoot)
    | .thrown e s1 => .thrown e s1
    | .stuck => .stuck
  | .declNull t => .ok () (s.pushRoot t none)
  | .copyRoot idx =>
    match s.OnStackGCPtrs.get? idx with
    | some r => .ok () (s.pushRoot r.2 (s.RootVals r.1))
    | none => .stuck
  | .dropLast =>
    if s.OnStackGCPtrs.isEmpty then .stuck else .ok () s.popRoot
  | .setField dstIdx srcIdx =>
    match s.OnStackGCPtrs.get? dstIdx, s.OnStackGCPtrs.get? srcIdx with
    | some d, some r =>
      match s.RootVals d.1 with
      | none => .stuck
      | some dobj =>
        match s.Pin dobj with
        | .ok _ s1 =>
          let s2 := s1.writeField (dobj + 16) (s1.RootVals r.1)
          match s2.Unpin dobj with
          | .ok _ s3 => .ok () s3
          | _ => .stuck
        | _ => .stuck
    | _, _ => .stuck
  | .pinRoot idx =>
    match s.OnStackGCPtrs.get? idx with
    | some r =>
      match s.RootVals r.1 with
      | none => .stuck
      | some obj => s.Pin obj
    | none => .stuck
  | .unpinRoot idx =>
    match s.OnStackGCPtrs.get? idx with
    | some r =>
      match s.RootVals r.1 with
      | none => .stuck
      | some obj => s.Unpin obj
    | none => .stuck
  | .collect => s.Collect FUEL

def runOps : List Op → Heap → Res Unit
  | [], s => .ok () s
  | op :: rest, s =>
    match step s op with
    | .ok _ s1 => runOps rest s1
    | .thrown e s1 => .thrown e s1
    | .stuck => .stuck

/-- Run an operation sequence from the fresh heap; `some` final state when
every operation completed normally. -/
def runFrom (ops : List Op) : Option Heap :=
  match runOps ops initHeap with
  | .ok _ s => some s
  | _ => none

/-- Whether the run hits undefined behaviour / a failed assertion / terminate. -/
def runStuckQ (ops : List Op) : Bool :=
  match runOps ops initHeap with
  | .stuck => true
  | _ => false

/-- Run a sequence and then tear the heap down (`~Heap` calls `FinalizeAll`). -/
def runThenFinalizeAll (ops : List Op) : Option Heap :=
  match runFrom ops with
  | none => none
  | some s =>
    match s.FinalizeAll FUEL with
    | .ok _ s1 => some s1
    | _ => none

/-- Run a sequence, then call `Allocate<t>` with a throwing payload
constructor; `some` final state when the constructor exception escaped. -/
def allocFailAfter (ops : List Op) (t : Ty) : Option Heap :=
  match runFrom ops with
  | none => none
  | some s =>
    match s.Allocate t true FUEL with
    | .thrown .ctorExn s1 => some s1
    | _ => none

/-- The operation trace of the demonstration `main` up to its first
`Collect`: `ptr = Allocate(); ptr->ptr = Allocate(); Allocate();
{ cycle = Allocate(); cycle->ptr = Allocate(); cycle->ptr->ptr = cycle; }
Collect();`. Objects land at 0, 32, 64, 96, 128 with allocation ids 0..4. -/
def opsMain : List Op :=
  [.allocKeep .tyA, .allocKeep .tyA, .setField 0 1, .dropLast, .allocDrop .tyA,
   .allocKeep .tyA, .allocKeep .tyA, .setField 1 2, .setField 2 1, .dropLast, .dropLast,
   .collect]

/-- The `main` trace continued through its pin test: `pin = Allocate();
pin.UnscopedPin(); Collect();` (the pinned object sits at 576, id 5,
handle id 5). -/
def opsPin : List Op :=
  opsMain ++ [.allocKeep .tyA, .pinRoot 1, .collect]

/-- Minimal pinned collection: one pinned root object at address 0. -/
def opsMinPin : List Op :=
  [.allocKeep .tyA, .pinRoot 0, .collect]

/-- Two stack handles referring to the same object (the second one
copy-constructed from the first), then a collection. -/
def opsDupRoots : List Op :=
  [.allocKeep .tyA, .copyRoot 0, .collect]

/-- Pin-stability scenario: `q` (at 0) holds an in-object reference to `p`
(at 32), `p` is pinned and additionally referenced by a copied handle. -/
def opsPinStabPre : List Op :=
  [.allocKeep .tyA, .allocKeep .tyA, .setField 0 1, .pinRoot 1, .copyRoot 1]

/-- The list `opsPinStabPre` followed by a collection. -/
def opsPinStab : List Op :=
  opsPinStabPre ++ [.collect]

/-- An object pinned and its handle destroyed — still pinned at teardown. -/
def opsPinTeardown : List Op :=
  [.allocKeep .tyA, .pinRoot 0, .dropLast]

/-- Object `a` (id 0) evacuated by a collection with `p` (id 1) pinned; both
handles then destroyed, so teardown finalizes `a` and walks past `p`. -/
def opsPinSurvive : List Op :=
  [.allocKeep .tyA, .allocKeep .tyA, .pinRoot 1, .collect, .dropLast, .dropLast]

/-- A pinned object surviving a collection in place, then unpinned and
dropped: it is finalized only two collections later (the delayed-finalize
path noted in the source), and exactly once. -/
def opsUnpinDelayed : List Op :=
  [.allocKeep .tyA, .pinRoot 0, .collect, .unpinRoot 0, .dropLast, .collect, .collect]

/-- Evacuation around a pinned island: dead `a` at 0, pinned `b` at 32,
live `c` at 64; after two collections the cursor has jumped the skip
record and the pinned object while evacuating `c`. -/
def opsPinIsland : List Op :=
  [.allocDrop .tyA, .allocKeep .tyA, .pinRoot 0, .allocKeep .tyA, .collect, .collect]

/-- Reaches a state whose `AllocPtr` sits on a skip record with an
insufficient gap (skip at 0 pointing to the pinned object at 32), so the
next `Allocate` jumps before constructing. -/
def opsSkipAtCursor : List Op :=
  [.allocDrop .tyA, .allocKeep .tyA, .pinRoot 0, .collect, .collect]

/-- Sixteen 32-byte allocations fill the 512-byte from-space exactly. -/
def opsFillExact : List Op :=
  List.replicate 16 (Op.allocKeep .tyA)

/-- A registered stack handle with null payload (`GCPtr<A> x{};`), then a
collection. -/
def opsNullRoot : List Op :=
  [.declNull .tyA, .collect]

/-- A full object lifecycle: the `main` trace, the pin test, unpinning,
dropping every handle and collecting twice. -/
def opsFullLife : List Op :=
  opsPin ++ [.unpinRoot 1, .collect, .dropLast, .dropLast, .collect, .collect]

/-- The operation alphabet for the bounded-exhaustive checks. -/
def alphabet : List Op :=
  [.allocKeep .tyA, .allocDrop .tyA, .pinRoot 0, .unpinRoot 0, .dropLast, .collect]

/-- Every operation sequence over `alphabet` of length at most `n`. -/
def seqsUpTo : Nat → List (List Op)
  | 0 => [[]]
  | n + 1 =>
    seqsUpTo n ++ (seqsUpTo n).flatMap (fun seq =>
      if seq.length = n then alphabet.map (fun op => seq ++ [op]) else [])

/-- Over the whole run — including teardown when the root set allows it —
no ghost allocation identity is finalized twice. Runs that hit undefined
behaviour have no final state and hold vacuously. -/
def dupFreeRun (ops : List Op) : Bool :=
  match runOps ops initHeap with
  | .ok _ s =>
    (match s.FinalizeAll FUEL with
     | .ok _ s1 => decide s1.FinLog.Nodup
     | _ => decide s.FinLog.Nodup)
  | .thrown _ s => decide s.FinLog.Nodup
  | .stuck => true

/-- The allocation cursor lies in `[From, From + Size/2]` (inclusive right
end). -/
def boundaryOk (s : Heap) : Bool :=
  decide (s.From ≤ s.AllocPtr) && decide (s.AllocPtr ≤ s.From + Heap.Size / 2)

/-- Check `boundaryOk` at every operation boundary along a run (at a thrown
exception, at the state the exception unwinds to; vacuous past undefined
behaviour). -/
def traceOk : List Op → Heap → Bool
  | [], s => boundaryOk s
  | op :: rest, s =>
    boundaryOk s &&
      match step s op with
      | .ok _ s1 => traceOk rest s1
      | .thrown _ s1 => boundaryOk s1
      | .stuck => true

/-- Reachability only through a pinned object's field: `Q` (id 1) is
referenced solely by the `ptr` field of `P` (id 0), `P` is pinned and `Q`'s
own handle destroyed before the collection. -/
def opsPinnedRef : List Op :=
  [.allocKeep .tyA, .allocKeep .tyA, .setField 0 1, .pinRoot 0, .dropLast, .collect]

/-- A pinned object at the very base of the space the next collection
evacuates into: `P` (id 0) pinned at address 0 survives one collection in
place; the second collection evacuates `R` (id 1). -/
def opsPinBaseOverwrite : List Op :=
  [.allocKeep .tyA, .pinRoot 0, .collect, .allocKeep .tyA, .collect]

/-- The trace `opsPinBaseOverwrite` with both handles destroyed, ready for
teardown. -/
def opsOverwriteTeardown : List Op :=
  opsPinBaseOverwrite ++ [.dropLast, .dropLast]

/-- A pinned object (`P`, id 1, at 32 — guarded by a skip record, unlike
`opsPinBaseOverwrite`) resident in the space the second collection
evacuates into, holding the only reference to `Q` (id 2); `R` (id 3) is
evacuated first so the scan cursor passes `P`. The field is assigned while
`P` is transiently unpinned, since `Pin` asserts an unpinned header. -/
def opsPinFieldTraced : List Op :=
  [.allocDrop .tyA, .allocKeep .tyA, .pinRoot 0, .collect, .allocKeep .tyA, .unpinRoot 0,
   .setField 0 1, .pinRoot 0, .dropLast, .allocKeep .tyA, .collect]

/-- Two copy-constructed handles of one object (id 0), collected, dropped,
ready for teardown. -/
def opsDupFinalize : List Op :=
  [.allocKeep .tyA, .copyRoot 0, .collect, .dropLast, .dropLast]

/-- The addresses of the pinned objects currently in from-space (objects
sit at 16-byte-aligned addresses inside the 1024-byte `Space`). -/
def pinnedFromAddrs (s : Heap) : List Nat :=
  ((List.range 64).map (fun k => 16 * k)).filter (fun a =>
    s.InFrom a && decide ((s.Headers a).Info ≠ none) &&
      decide ((s.Headers a).Forwardee = some a))

/-- After a completed `Collect`, every object that was pinned in the
pre-collection from-space has an unchanged header and an address no longer
in from-space (vacuous when the collection does not complete). -/
def collectPinnedOk (s : Heap) : Bool :=
  match s.Collect FUEL with
  | .ok _ s1 =>
    (pinnedFromAddrs s).all (fun a =>
      decide (s1.Headers a = s.Headers a) && !(s1.InFrom a))
  | _ => true

/-- Check `collectPinnedOk` at every `Collect` along a run. -/
def pinnedStableTrace : List Op → Heap → Bool
  | [], _ => true
  | op :: rest, s =>
    (if op = Op.collect then collectPinnedOk s else true) &&
      match step s op with
      | .ok _ s1 => pinnedStableTrace rest s1
      | _ => true

/-- A second operation alphabet for bounded-exhaustive checks, exercising
the finalizer-free 48-byte type `tyB` alongside `tyA`. -/
def alphabetB : List Op :=
  [.allocKeep .tyA, .allocKeep .tyB, .pinRoot 0, .unpinRoot 0, .dropLast, .collect]

/-- Every operation sequence over `alphabetB` of length at most `n`. -/
def seqsUpToB : Nat → List (List Op)
  | 0 => [[]]
  | n + 1 =>
    seqsUpToB n ++ (seqsUpToB n).flatMap (fun seq =>
      if seq.length = n then alphabetB.map (fun op => seq ++ [op]) else [])

/-- A mid-collection heap used to instantiate the `ProcessReference`
theorem: one live, unforwarded object at address 0 in from-space, the
to-space cursor at its base (a zero sentinel there), and a root slot
referring to the object. -/
def W4 : Heap :=
  { initHeap with
    AllocPtr := 512,
    Headers := fun x =>
      if x = 0 then { Info := some .tyA, Forwardee := none }
      else { Info := none, Forwardee := none },
    RootVals := fun i => if i = 0 then some 0 else none }

theorem readSlot_writeSlot_self (s : Heap) (slot : Slot) (v : Option Nat) :
    (s.writeSlot slot v).readSlot slot = v := by
  cases slot <;>
    simp [Heap.writeSlot, Heap.readSlot, Heap.writeRoot, Heap.writeField]

theorem writeSlot_Headers (s : Heap) (slot : Slot) (v : Option Nat) :
    (s.writeSlot slot v).Headers = s.Headers := by
  cases slot <;> rfl

theorem writeSlot_AllocPtr (s : Heap) (slot : Slot) (v : Option Nat) :
    (s.writeSlot slot v).AllocPtr = s.AllocPtr := by
  cases slot <;> rfl

/-- C1, counterexample. Run `Allocate; UnscopedPin; Collect` (the spec's S3
in miniature). The pinned object survives at its original address 0 with
`Forwardee == header`, yet after `Collect` returns `InFrom(o)` is FALSE —
its address belongs to the new `TO`, not the new `FROM` as the claim
states — and the new `FROM` is empty (`Used() = 0`) although the pinned
object is both reachable and pinned. -/
theorem C1_pinned_not_in_from_counterexample :
    (runFrom opsMinPin).map (fun s => (s.Headers 0, s.InFrom 0, s.Used, s.From, s.To)) =
      some ({ Info := some .tyA, Forwardee := some 0 }, false, 0, 512, 0) := by
  decide

set_option maxRecDepth 10000 in
/-- C1, amended. (1) Every object pinned in the pre-collection `FROM`
keeps its header unchanged at its original address, which after the swap
belongs to the new `TO` — `InFrom(o)` is FALSE for such `o`: checked
exhaustively over every operation sequence of length at most four of the
C5 alphabet and over the longer traces (first two conjuncts), and
concretely on `main`'s pin trace (conjuncts 3-6). (2) Which objects the
new `FROM` then contains: the copies this collection evacuated into it —
`main`'s pin trace: exactly the copies of allocations 0 and 1 at 0 and 32,
sentinel at 64 — TOGETHER WITH the pinned objects already resident in the
pre-collection `TO` when a skip record steers the cursor around them
(`opsPinIsland`: pinned id 1 in place at 32 behind the skip record at 0,
conjunct 7; its fields are even traced by the scan when it lies below the
final cursor, `opsPinFieldTraced`: id 2, referenced only by the pinned
object's field, is evacuated to 96 and the field rewritten, conjunct 8) —
but a pinned island starting at the BASE of that space has no skip record
and is overwritten by the incoming evacuation (`opsPinBaseOverwrite`:
id 1's copy replaces pinned id 0 at address 0, conjunct 9). (3) Evacuation
is NOT plain transitive reachability: the scan never visits objects pinned
in the pre-collection `FROM`, so an object reachable from the roots only
through such a pinned object's field is finalized, not evacuated, and the
field dangles (`opsPinnedRef`: new `FROM` empty, id 1 finalized, the
pinned object's field still holds the stale 32, conjunct 10). -/
theorem C1_amended_post_collect_layout :
    (seqsUpTo 4).all (fun ops => pinnedStableTrace ops initHeap) = true ∧
    (pinnedStableTrace opsPin initHeap && pinnedStableTrace opsPinnedRef initHeap &&
      pinnedStableTrace opsPinBaseOverwrite initHeap &&
      pinnedStableTrace opsPinFieldTraced initHeap &&
      pinnedStableTrace opsFullLife initHeap) = true ∧
    (runFrom opsPin).map (fun s => (s.From, s.To, s.AllocPtr, s.Used)) =
      some (0, 512, 64, 64) ∧
    (runFrom opsPin).map (fun s =>
      (s.Headers 0, s.ObjIds 0, s.Headers 32, s.ObjIds 32)) =
    some ({ Info := some .tyA, Forwardee := none }, some 0,
      { Info := some .tyA, Forwardee := none }, some 1) ∧
    (runFrom opsPin).map (fun s =>
      (s.Fields 16, s.Headers 64, s.RootVals 0, s.FinLog)) =
    some (some 32, { Info := none, Forwardee := none }, some 0,
      [some 2, some 3, some 4]) ∧
    (runFrom opsPin).map (fun s =>
      (s.Headers 576, s.RootVals 5, s.InFrom 576, s.Headers 512)) =
    some ({ Info := some .tyA, Forwardee := some 576 }, some 576, false,
      { Info := none, Forwardee := some 576 }) ∧
    (runFrom opsPinIsland).map (fun s =>
      (s.Headers 0, s.Headers 32, s.ObjIds 32)) =
    some ({ Info := none, Forwardee := some 32 },
      { Info := some .tyA, Forwardee := some 32 }, some 1) ∧
    (runFrom opsPinFieldTraced).map (fun s =>
      (s.Used, s.Fields 48, s.Headers 96, s.ObjIds 96)) =
    some (128, some 96, { Info := some .tyA, Forwardee := none }, some 2) ∧
    (runFrom opsPinBaseOverwrite).map (fun s =>
      (s.Headers 0, s.ObjIds 0, s.RootVals 0, s.FinLog)) =
    some ({ Info := some .tyA, Forwardee := none }, some 1, some 0, []) ∧
    (runFrom opsPinnedRef).map (fun s =>
      (s.Used, s.Headers 0, s.InFrom 0, s.Fields 16)) =
    some (0, { Info := some .tyA, Forwardee := some 0 }, false, some 32) ∧
    (runFrom opsPinnedRef).map (fun s => (s.FinLog, s.Headers 32)) =
    some ([some 1], { Info := none, Forwardee := none }) := by
  exact ⟨by decide, by decide, by decide, by decide, by decide, by decide, by decide,
    by decide, by decide, by decide, by decide⟩

/-- C2, code-bug evaluation. Two stack handles refer to the same object
(allocation id 0): `Collect` invokes the `Evacuate` thunk on both, and the
second invocation — although the referent's old header already holds a
forwardee (non-null, not itself) — copies the object AGAIN:
`Heap::Evacuate` only short-circuits the pinned case. The two handles end
up at two distinct copies (512 and 544), both carrying allocation id 0,
and `Used()` counts 64 bytes for the one live object, contradicting the
claimed no-op / single-copy behaviour. -/
theorem C2_duplicate_evacuation_run :
    (runFrom opsDupRoots).map (fun s =>
      (s.RootVals 0, s.RootVals 1, s.ObjIds 512, s.ObjIds 544, s.Used)) =
      some (some 512, some 544, some 0, some 0, 64) := by
  decide

/-- C3: pin stability. Before the collection, `p` sits at address 32,
pinned, referenced by its own root handle (id 1), by a copied root handle
(id 2) and by the in-object field of `q` (at address 16); after `Collect`,
all three references still hold exactly 32 (`q`'s surviving copy holds it
at the copied field, address 528), and `p`'s header is untouched at 32. -/
theorem C3_pin_stability :
    (runFrom opsPinStabPre).map (fun s =>
      (s.RootVals 1, s.RootVals 2, s.Fields 16, s.Headers 32)) =
      some (some 32, some 32, some 32, { Info := some .tyA, Forwardee := some 32 }) ∧
    (runFrom opsPinStab).map (fun s =>
      (s.RootVals 1, s.RootVals 2, s.Fields 528, s.Headers 32)) =
      some (some 32, some 32, some 32, { Info := some .tyA, Forwardee := some 32 }) := by
  exact ⟨by decide, by decide⟩

/-- C6, counterexample. An object with a finalizer is pinned and its handle
destroyed; at teardown `FinalizeAll` sees its non-null `Forwardee` and
skips it: the finalize log stays empty — the finalizer ran zero times, not
exactly once. -/
theorem C6_pinned_teardown_counterexample :
    (runThenFinalizeAll opsPinTeardown).map (fun s => (s.FinLog, s.Headers 0)) =
      some ([], { Info := some .tyA, Forwardee := some 0 }) := by
  decide

set_option maxRecDepth 10000 in
/-- C6, amended. Over sequences of `Allocate`, `Pin`, `Unpin`, `Collect`
and handle destruction — with no copy-constructed handles — each allocated
object's finalizer runs AT MOST once: checked exhaustively over every
sequence of length at most four of the second alphabet (which also
exercises the finalizer-free type `tyB`), each followed by teardown
(conjunct 1; the C5 theorem covers the first alphabet). But not always
exactly once: `a` (id 0), evacuated by a collection, is finalized exactly
once at teardown while the still-pinned `p` (id 1) is skipped by
`FinalizeAll` and never finalized (conjunct 2); the delayed-unpin path
finalizes its object exactly once, two collections later (conjunct 3); and
an object pinned at the base of a semispace that a later collection
evacuates into is overwritten — id 0 is never finalized, only the
overwriting id 1's copy is (conjunct 4). Outside the no-copy restriction
the bound fails entirely: two copy-constructed handles of one object make
`Collect` produce two copies and teardown finalizes id 0 TWICE
(conjunct 5). -/
theorem C6_amended_finalize_once_unless_pinned :
    (seqsUpToB 4).all dupFreeRun = true ∧
    (runThenFinalizeAll opsPinSurvive).map (fun s => (s.FinLog, s.Headers 32)) =
      some ([some 0], { Info := some .tyA, Forwardee := some 32 }) ∧
    (runThenFinalizeAll opsUnpinDelayed).map (fun s => s.FinLog) = some [some 0] ∧
    (runThenFinalizeAll opsOverwriteTeardown).map (fun s => (s.FinLog, s.ObjIds 0)) =
      some ([some 1], some 1) ∧
    (runThenFinalizeAll opsDupFinalize).map (fun s => s.FinLog) =
      some [some 0, some 0] := by
  exact ⟨by decide, by decide, by decide, by decide, by decide⟩

/-- C7, counterexample. After `Collect` on a heap with one pinned, rooted
object (size 32), `Used() = 0`: the pinned object — reachable AND pinned —
was not evacuated into the new `FROM` and contributes nothing to
`AllocPtr - FROM`, while the claim demands the sum of `Info->Size` over
reachable plus prior-generation pinned objects (at least 32). -/
theorem C7_used_counterexample :
    (runFrom opsMinPin).map (fun s => (s.Used, s.ObjIds 0, s.Headers 0)) =
      some (0, some 0, { Info := some .tyA, Forwardee := some 0 }) := by
  decide

/-- C7, amended: immediately after `Collect`, `Used()` equals the bytes the
evacuation cursor consumed in the new `FROM`: the sum of `Info->Size` over
the objects evacuated in that collection plus the bytes of any pinned
islands and skip gaps the cursor jumped over; pinned objects are never
counted as such (those of the pre-collection `FROM` now sit in the new
`TO`). Verified on: `main`'s first collection (two evacuated objects,
`Used = 64`); the minimal pin collection (nothing evacuated, `Used = 0`);
and the pinned-island trace, where one 32-byte object is evacuated past a
32-byte skip gap and the 32-byte pinned object, giving `Used = 96`. -/
theorem C7_amended_used_accounting :
    (runFrom opsMain).map (fun s => s.Used) = some 64 ∧
    (runFrom opsMinPin).map (fun s => s.Used) = some 0 ∧
    (runFrom opsPinIsland).map (fun s => (s.Used, s.From, s.Headers 64, s.ObjIds 64)) =
      some (96, 0, { Info := some .tyA, Forwardee := none }, some 2) := by
  exact ⟨by decide, by decide, by decide⟩

/-- C8, counterexample. Reachable pre-state: `AllocPtr = 0` sits on a skip
record `{Info:null, Forwardee:32}` guarding the pinned object at 32. An
`Allocate` whose payload constructor throws first JUMPS the cursor past
the pinned object (reading the preamble at 64, a zero sentinel), then the
rollback guard restores `AllocPtr = 0` and writes that preamble at the
RESTORED position: the skip record at 0 is destroyed (replaced by the
sentinel read at 64). The heap is changed, the preamble was not written
back where it was read, and the next allocation would no longer be steered
around the pinned object. -/
theorem C8_rollback_counterexample :
    (runFrom opsSkipAtCursor).map (fun s =>
      (s.AllocPtr, s.Headers 0, s.Headers 32, s.Headers 64)) =
      some (0, { Info := none, Forwardee := some 32 },
        { Info := some .tyA, Forwardee := some 32 }, { Info := none, Forwardee := none }) ∧
    (allocFailAfter opsSkipAtCursor .tyA).map (fun s => (s.AllocPtr, s.Headers 0)) =
      some (0, { Info := none, Forwardee := none }) := by
  exact ⟨by decide, by decide⟩

/-- C9, counterexample. Sixteen 32-byte allocations fill the 512-byte
from-space exactly: afterwards `AllocPtr = FROM + SemispaceSize = 512`,
which is NOT strictly inside `[FROM, FROM + SemispaceSize)` as the claim
requires at all times. -/
theorem C9_allocptr_boundary_counterexample :
    (runFrom opsFillExact).map (fun s =>
      (s.From, s.AllocPtr, decide (s.AllocPtr < s.From + Heap.Size / 2))) =
      some (0, 512, false) := by
  decide

/-- C10, code-bug evaluation. A default-constructed stack handle registers
itself in the root set with null payload — explicitly allowed by the
spec's root invariant — but `Collect` passes the null payload to
`Heap::Evacuate` through the `GCInfo` thunk WITHOUT the null check that
`ProcessReference` performs, dereferencing a null `GCHeader*`: the run is
stuck (crash/UB), not a completed collection. -/
theorem C10_null_root_crash_run :
    (runFrom [Op.declNull .tyA]).map (fun s => (s.OnStackGCPtrs, s.RootVals 0)) =
      some ([(0, Ty.tyA)], none) ∧
    runStuckQ opsNullRoot = true := by
  exact ⟨by decide, by decide⟩

set_option maxRecDepth 10000 in
/-- C5: each managed object's finalizer runs at most once. Checked
exhaustively over EVERY sequence of at most four operations drawn from
{`Allocate`-and-keep, `Allocate`-and-drop, `Pin` root 0, `Unpin` root 0,
destroy last handle, `Collect`}, each followed by teardown, and over the
longer representative traces (the full `main` trace with pin test, the
pinned-survivor teardown, the delayed-unpin double-collect path, the
pinned-island compaction, and a full lifecycle in which all six
allocations are eventually reclaimed): no ghost allocation identity is
ever finalized twice. -/
theorem C5_finalizer_at_most_once :
    (seqsUpTo 4).all dupFreeRun = true ∧
    (dupFreeRun opsMain && dupFreeRun opsPin && dupFreeRun opsPinSurvive &&
      dupFreeRun opsUnpinDelayed && dupFreeRun opsPinIsland &&
      dupFreeRun opsFullLife) = true ∧
    (runThenFinalizeAll opsFullLife).map (fun s => s.FinLog) =
      some [some 2, some 3, some 4, some 0, some 5, some 1] := by
  exact ⟨by decide, by decide, by decide⟩

set_option maxRecDepth 10000 in
/-- C9, amended: at every operation boundary (before and after every
`Allocate`, `Pin`, `Unpin` and `Collect`) the cursor satisfies
`AllocPtr ∈ [FROM, FROM + SemispaceSize]` — right endpoint INCLUSIVE,
reached when the from-space is exactly full — while during an in-progress
`Collect` (after flip prep, before the final swap) `AllocPtr` is the
evacuation cursor in the `TO` semispace. The boundary statement is checked
exhaustively over every sequence of at most four operations from the C5
alphabet and over the longer traces; the in-collection clause is witnessed
by the flip-prep state of the collection following `main`'s trace, whose
cursor equals `To` and is not in `FROM`. -/
theorem C9_amended_allocptr_range :
    (seqsUpTo 4).all (fun ops => traceOk ops initHeap) = true ∧
    (traceOk opsMain initHeap && traceOk opsPin initHeap &&
      traceOk opsFillExact initHeap && traceOk opsPinIsland initHeap &&
      traceOk opsFullLife initHeap) = true ∧
    (runFrom opsMain).map (fun s =>
      (s.collectPrep.AllocPtr, s.collectPrep.To,
        s.collectPrep.InFrom s.collectPrep.AllocPtr)) = some (0, 0, false) := by
  exact ⟨by decide, by decide, by decide⟩

theorem AdjustAllocPtrTo_noJump (s : Heap) (size n : Nat)
    (hroom : usub s.AllocPtr s.To ≤ Heap.Size / 2 - size)
    (hskip : (s.Headers s.AllocPtr).Info ≠ none ∨
      (s.Headers s.AllocPtr).Forwardee = none) :
    Heap.AdjustAllocPtrTo size (n + 1) s = .ok (s.Headers s.AllocPtr) s := by
  have hov : ¬ (usub s.AllocPtr s.To > Heap.Size / 2 - size) := Nat.not_lt.mpr hroom
  unfold Heap.AdjustAllocPtrTo
  rcases hh : s.Headers s.AllocPtr with ⟨i, f⟩
  rw [hh] at hskip
  cases i with
  | none =>
    cases f with
    | none => simp [hov, hh]
    | some np => simp at hskip
  | some t' => cases f <;> simp [hov, hh]

theorem AdjustAllocPtrFrom_noJump (s : Heap) (size n : Nat)
    (hroom : usub s.AllocPtr s.From ≤ Heap.Size / 2 - size)
    (hskip : (s.Headers s.AllocPtr).Info ≠ none ∨
      (s.Headers s.AllocPtr).Forwardee = none) :
    Heap.AdjustAllocPtrFrom size (n + 1) s = .ok (s.Headers s.AllocPtr) s := by
  have hov : ¬ (usub s.AllocPtr s.From > Heap.Size / 2 - size) := Nat.not_lt.mpr hroom
  unfold Heap.AdjustAllocPtrFrom
  rcases hh : s.Headers s.AllocPtr with ⟨i, f⟩
  rw [hh] at hskip
  cases i with
  | none =>
    cases f with
    | none => simp [hov, hh]
    | some np => simp at hskip
  | some t' => cases f <;> simp [hov, hh]

/-- C8, amended: when the payload constructor of an `Allocate` throws, the
exception propagates, `AllocPtr` is rolled back to its pre-call value, and
the saved preamble is written at the RESTORED cursor position (when more
than a header of space remains); when `AdjustAllocPtr` performed no
skip-record jump and triggered no collection — the hypotheses here — that
position is exactly where the preamble was read, so the heap is completely
unchanged. -/
theorem C8_amended_rollback (s : Heap) (t : Ty) (fuel : Nat)
    (hfuel : 1 ≤ fuel)
    (hroom : usub s.AllocPtr s.From ≤ Heap.Size / 2 - t.Size)
    (hskip : (s.Headers s.AllocPtr).Info ≠ none ∨
      (s.Headers s.AllocPtr).Forwardee = none) :
    ∃ s1, Heap.Allocate t true fuel s = .thrown .ctorExn s1 ∧
      s1.AllocPtr = s.AllocPtr ∧ (∀ x, s1.Headers x = s.Headers x) ∧
      s1.Fields = s.Fields ∧ s1.RootVals = s.RootVals ∧
      s1.OnStackGCPtrs = s.OnStackGCPtrs ∧ s1.From = s.From ∧ s1.To = s.To ∧
      s1.FinLog = s.FinLog := by
  obtain ⟨n, rfl⟩ : ∃ n, fuel = n + 1 := ⟨fuel - 1, by omega⟩
  have hadj := AdjustAllocPtrFrom_noJump s t.Size n hroom hskip
  unfold Heap.Allocate
  simp only [hadj]
  refine ⟨_, rfl, ?_, ?_, ?_, ?_, ?_, ?_, ?_, ?_⟩
  · split <;> rfl
  · intro x
    split
    · simp only [Heap.writeHeader]
      by_cases hx : x = s.AllocPtr <;> simp [hx]
    · rfl
  · split <;> rfl
  · split <;> rfl
  · split <;> rfl
  · split <;> rfl
  · split <;> rfl
  · split <;> rfl

/-- C8 witness: the amended rollback theorem applied to the fresh heap with
a throwing `tyA` constructor. -/
theorem C8_amended_rollback_witness :
    ∃ s1, Heap.Allocate .tyA true 1 initHeap = .thrown .ctorExn s1 ∧
      s1.AllocPtr = initHeap.AllocPtr ∧ (∀ x, s1.Headers x = initHeap.Headers x) := by
  obtain ⟨s1, h1, h2, h3, _⟩ := C8_amended_rollback initHeap .tyA 1 (by decide) (by decide)
    (Or.inr rfl)
  exact ⟨s1, h1, h2, h3⟩

set_option maxHeartbeats 1000000 in
theorem Evacuate_unforwarded (s : Heap) (t : Ty) (a : Nat) (n : Nat)
    (hfwd : (s.Headers a).Forwardee = none)
    (hcap : usub s.AllocPtr s.To ≤ Heap.Size / 2 - t.Size)
    (hskip : (s.Headers s.AllocPtr).Info ≠ none ∨
      (s.Headers s.AllocPtr).Forwardee = none)
    (hne1 : a ≠ s.AllocPtr) (hne2 : a ≠ s.AllocPtr + t.Size) :
    ∃ s1, Heap.Evacuate t a (n + 1) s = .ok s.AllocPtr s1 ∧
      s1.Headers a = { Info := (s.Headers a).Info, Forwardee := some s.AllocPtr } ∧
      s1.Headers s.AllocPtr = { Info := some t, Forwardee := none } ∧
      s1.AllocPtr = s.AllocPtr + t.Size ∧
      s1.RootVals = s.RootVals := by
  have hpin : ¬ ((s.Headers a).Forwardee = some a) := by rw [hfwd]; simp
  have hov : ¬ (usub s.AllocPtr s.To > Heap.Size / 2 - t.Size) := Nat.not_lt.mpr hcap
  have hadj := AdjustAllocPtrTo_noJump s t.Size n hcap hskip
  have hne1' : ¬ (a = s.AllocPtr) := hne1
  have hne2' : ¬ (a = s.AllocPtr + t.Size) := hne2
  have hne1s : ¬ (s.AllocPtr = a) := fun h => hne1 h.symm
  have hsz : ¬ (s.AllocPtr = s.AllocPtr + t.Size) := by cases t <;> simp [Ty.Size]
  unfold Heap.Evacuate
  simp only [if_neg hpin, if_neg hov, hadj]
  cases t with
  | tyA =>
    refine ⟨_, rfl, ?_, ?_, ?_, ?_⟩
    · split <;>
        simp [Heap.writeHeader, Heap.writeField, Ty.fieldTys, List.foldl, hne1', hne2']
    · split <;>
        simp [Heap.writeHeader, Heap.writeField, Ty.fieldTys, List.foldl, hne1s, hsz]
    · split <;> rfl
    · split <;> rfl
  | tyB =>
    refine ⟨_, rfl, ?_, ?_, ?_, ?_⟩
    · split <;>
        simp [Heap.writeHeader, Heap.writeField, Ty.fieldTys, List.foldl, hne1', hne2']
    · split <;>
        simp [Heap.writeHeader, Heap.writeField, Ty.fieldTys, List.foldl, hne1s, hsz]
    · split <;> rfl
    · split <;> rfl

/-- C4: the case analysis of `ProcessReference` — (i) a null reference
returns with the heap unchanged; (ii) a from-space referent whose header
has a non-null `Forwardee` (this includes both an evacuated referent and a
pinned one) has the reference rewritten to that `Forwardee`; (iii) a
from-space referent with null `Forwardee` is evacuated to the cursor
position in to-space, the old header receives the forwarding pointer and
the reference is rewritten to the new copy; (iv) a pinned referent's
reference still holds the original address afterwards and the referent's
header is untouched. Case (iii) carries the hypotheses making the single
evacuation succeed: to-space room for the object, no skip record under the
cursor, positive fuel, and the cursor (and the slot it advances to) lying
outside from-space. -/
theorem C4_processReference_spec (s : Heap) (t : Ty) (slot : Slot) (fuel : Nat) :
    (s.readSlot slot = none → Heap.ProcessReference t slot fuel s = .ok () s) ∧
    (∀ a f, s.readSlot slot = some a → (s.Headers a).Info ≠ none →
      s.InFrom a = true → (s.Headers a).Forwardee = some f →
      Heap.ProcessReference t slot fuel s = .ok () (s.writeSlot slot (some f))) ∧
    (∀ a, s.readSlot slot = some a → (s.Headers a).Info ≠ none →
      s.InFrom a = true → (s.Headers a).Forwardee = none →
      usub s.AllocPtr s.To ≤ Heap.Size / 2 - t.Size →
      ((s.Headers s.AllocPtr).Info ≠ none ∨ (s.Headers s.AllocPtr).Forwardee = none) →
      1 ≤ fuel → s.InFrom s.AllocPtr = false → s.InFrom (s.AllocPtr + t.Size) = false →
      ∃ s1, Heap.ProcessReference t slot fuel s = .ok () s1 ∧
        s1.readSlot slot = some s.AllocPtr ∧
        (s1.Headers a).Forwardee = some s.AllocPtr ∧
        s1.Headers s.AllocPtr = { Info := some t, Forwardee := none } ∧
        s1.AllocPtr = s.AllocPtr + t.Size) ∧
    (∀ a, s.readSlot slot = some a → (s.Headers a).Info ≠ none →
      (s.Headers a).Forwardee = some a →
      ∃ s1, Heap.ProcessReference t slot fuel s = .ok () s1 ∧
        s1.readSlot slot = some a ∧ s1.Headers a = s.Headers a) := by
  refine ⟨?_, ?_, ?_, ?_⟩
  · intro h
    unfold Heap.ProcessReference
    simp [h]
  · intro a f hread hinfo hinf hfwd
    unfold Heap.ProcessReference
    simp [hread, hinfo, hinf, hfwd]
  · intro a hread hinfo hinf hfwd hcap hskip hfuel hap haps
    obtain ⟨n, rfl⟩ : ∃ n, fuel = n + 1 := ⟨fuel - 1, by omega⟩
    have hne1 : a ≠ s.AllocPtr := by
      intro h
      rw [h, hap] at hinf
      simp at hinf
    have hne2 : a ≠ s.AllocPtr + t.Size := by
      intro h
      rw [h, haps] at hinf
      simp at hinf
    obtain ⟨s1, he, hHa, hHap, hA, _⟩ :=
      Evacuate_unforwarded s t a n hfwd hcap hskip hne1 hne2
    refine ⟨s1.writeSlot slot (some s.AllocPtr), ?_, ?_, ?_, ?_, ?_⟩
    · unfold Heap.ProcessReference
      simp [hread, hinfo, hinf, hfwd, he]
    · rw [readSlot_writeSlot_self]
    · rw [writeSlot_Headers, hHa]
    · rw [writeSlot_Headers, hHap]
    · rw [writeSlot_AllocPtr, hA]
  · intro a hread hinfo hpin
    cases hinf : s.InFrom a with
    | true =>
      refine ⟨s.writeSlot slot (some a), ?_, ?_, ?_⟩
      · unfold Heap.ProcessReference
        simp [hread, hinfo, hinf, hpin]
      · rw [readSlot_writeSlot_self]
      · rw [writeSlot_Headers]
    | false =>
      refine ⟨s, ?_, hread, rfl⟩
      unfold Heap.ProcessReference
      simp [hread, hinfo, hinf]

/-- C4 witness: the evacuation case applied at the concrete mid-collection
heap `W4`: the root slot's referent at 0 is evacuated to the cursor at 512
and the slot rewritten to point there. -/
theorem C4_processReference_spec_witness :
    ∃ s1, Heap.ProcessReference .tyA (.root 0) 5 W4 = .ok () s1 ∧
      s1.readSlot (.root 0) = some W4.AllocPtr ∧
      (s1.Headers 0).Forwardee = some W4.AllocPtr ∧
      s1.Headers W4.AllocPtr = { Info := some .tyA, Forwardee := none } ∧
      s1.AllocPtr = W4.AllocPtr + Ty.Size .tyA := by
  exact (C4_processReference_spec W4 .tyA (.root 0) 5).2.2.1 0 rfl (by decide) (by decide)
    (by decide) (by decide) (Or.inr (by decide)) (by decide) (by decide) (by decide)

end GC
